import Mathlib

/-!
Verification of the course relationship-derivation engine of
`scripts/process_courses.py`.

The Python functions are shallowly embedded over `String` / `List Char`:

* `_to_int`            → `CourseData.pyToInt`
* `_course_number`     → `CourseData.courseNumber`
* `_parse_time_range`  → `CourseData.parseTimeRange` (regex as `matchTimeRange`)
* `_parse_days`        → `CourseData.parseDays`
* `_times_overlap`     → `CourseData.timesOverlap`
* `_parse_date_range`  → `CourseData.parseDateRange`
* `_is_gta_eligible`   → `CourseData.isGtaEligible`
* `_section_sort_key`  → `CourseData.sectionKey`
* `_row_sort_key`      → `CourseData.rowKey`
* `_gta_sort_key`      → `CourseData.gtaKey`
* `process_rows`       → `CourseData.processRows`
* `write_gta_compatibility_matrix` → `CourseData.gtaMatrix`

`process_rows` mutates a list of dicts in place in several passes and finally
sorts it.  The embedding represents the same computation functionally: a raw
record is a `Row` of the fourteen scraped string fields, the annotated record
is a `ProcRow` (raw fields plus the derived fields that the passes add), and
each derived field is the net per-row effect of the corresponding pass.  The
passes are order-independent across rows (each row belongs to exactly one
crosslist group and one term group, and the pairwise conflict loop adds CRNs
symmetrically), so the net-effect form computes field-for-field the same
values as the imperative loops.  Python's stable `sort`/`sorted` is modelled
by `List.insertionSort`, which is also stable, with the same key comparison.
Character-level semantics (digits, whitespace, case) follow Python's
behaviour on ASCII data.
-/

set_option maxRecDepth 8000

namespace CourseData

/-- ASCII whitespace: what Python's `str.strip()` removes and the regex
class `\s` matches on ASCII text. -/
def isPySpace (c : Char) : Bool :=
  c = ' ' || c = '\t' || c = '\n' || c = '\r' || c = '\x0b' || c = '\x0c'

/-- Python `str.strip()`: drop whitespace from both ends. -/
def pyStrip (s : String) : String :=
  ⟨((s.data.dropWhile isPySpace).reverse.dropWhile isPySpace).reverse⟩

/-- Python `str.lower()` on ASCII data. -/
def pyLower (s : String) : String := ⟨s.data.map Char.toLower⟩

/-- Numeric value of a digit string (most significant digit first). -/
def digitsToNat (cs : List Char) : Nat :=
  cs.foldl (fun a c => a * 10 + (c.toNat - 48)) 0

/-- Does `needle` occur as a contiguous run inside `hay`?  Python's
`needle in hay` on strings. -/
def containsRun (needle : List Char) : List Char → Bool
  | [] => needle.isEmpty
  | c :: rest => List.isPrefixOf needle (c :: rest) || containsRun needle rest

/-- Body of a Python integer literal after the optional sign: at least one
digit, only digits and underscores, underscores strictly between digits
(so the body starts and ends with a digit and has no double underscore). -/
def validIntBody (cs : List Char) : Bool :=
  !cs.isEmpty &&
  cs.all (fun c => c.isDigit || c = '_') &&
  (match cs.head? with | some c => c.isDigit | none => false) &&
  (match cs.getLast? with | some c => c.isDigit | none => false) &&
  !containsRun ['_', '_'] cs

/-- Embeds `_to_int`: Python `int(value)` on a string, with any failure mapped
to `0`.  `int` ignores surrounding whitespace, allows one sign, and allows
underscores between digits. -/
def pyToInt (s : String) : Int :=
  let cs := ((s.data.dropWhile isPySpace).reverse.dropWhile isPySpace).reverse
  match cs with
  | '+' :: rest =>
      if validIntBody rest then (digitsToNat (rest.filter Char.isDigit) : Int) else 0
  | '-' :: rest =>
      if validIntBody rest then -(digitsToNat (rest.filter Char.isDigit) : Int) else 0
  | rest =>
      if validIntBody rest then (digitsToNat (rest.filter Char.isDigit) : Int) else 0

/-- First run of at least three consecutive digits, taken greedily:
`re.search(r"(\d{3,})", ...)`.  Scans left to right; at the first position
where three digits start, the whole maximal digit run from that position
is the match. -/
def firstNumRun : List Char → Option Nat
  | a :: b :: c :: rest =>
      if a.isDigit && b.isDigit && c.isDigit then
        some (digitsToNat (a :: b :: c :: rest.takeWhile Char.isDigit))
      else firstNumRun (b :: c :: rest)
  | _ => none

/-- Embeds `_course_number`: course number parsed from the `course` field text. -/
def courseNumber (course : String) : Option Nat := firstNumRun course.data

/-- Regex fragment `(\d{1,2}):` — one or two digits followed by a colon
(with the regex engine's backtracking over `\d{1,2}`). -/
def matchHourColon : List Char → Option (Nat × List Char)
  | a :: b :: rest =>
      if a.isDigit && b.isDigit then
        match rest with
        | ':' :: rest2 => some (digitsToNat [a, b], rest2)
        | _ => none
      else if a.isDigit && b = ':' then some (digitsToNat [a], rest)
      else none
  | _ => none

/-- Regex fragment `(\d{2})` — exactly two digits. -/
def matchMinutes : List Char → Option (Nat × List Char)
  | a :: b :: rest =>
      if a.isDigit && b.isDigit then some (digitsToNat [a, b], rest) else none
  | _ => none

/-- Regex fragment `(AM|PM)` with `re.IGNORECASE`; `true` means PM. -/
def matchAmPm : List Char → Option (Bool × List Char)
  | a :: m :: rest =>
      if (a = 'A' || a = 'a') && (m = 'M' || m = 'm') then some (false, rest)
      else if (a = 'P' || a = 'p') && (m = 'M' || m = 'm') then some (true, rest)
      else none
  | _ => none

/-- The whole regex of `_parse_time_range`,
`\s*(\d{1,2}):(\d{2})(AM|PM)\s*-\s*(\d{1,2}):(\d{2})(AM|PM)\s*`, applied
with `re.match`: anchored at the start, trailing text allowed.  Returns the
six captured groups (hour, minutes, is-PM for each endpoint). -/
def matchTimeRange (s : String) : Option (Nat × Nat × Bool × Nat × Nat × Bool) :=
  match matchHourColon (s.data.dropWhile isPySpace) with
  | none => none
  | some (h1, r1) =>
    match matchMinutes r1 with
    | none => none
    | some (m1, r2) =>
      match matchAmPm r2 with
      | none => none
      | some (p1, r3) =>
        match r3.dropWhile isPySpace with
        | '-' :: r4 =>
          match matchHourColon (r4.dropWhile isPySpace) with
          | none => none
          | some (h2, r5) =>
            match matchMinutes r5 with
            | none => none
            | some (m2, r6) =>
              match matchAmPm r6 with
              | none => none
              | some (p2, _) => some (h1, m1, p1, h2, m2, p2)
        | _ => none

/-- Embeds `to_minutes` inside `_parse_time_range`: hour mod 12, plus 12 hours
when PM, times 60, plus the minutes. -/
def toMinutes (h mi : Nat) (pm : Bool) : Nat :=
  ((h % 12) + if pm then 12 else 0) * 60 + mi

/-- Embeds `_parse_time_range`: minutes-since-midnight endpoints, or `none` when
the text is empty, does not match the pattern, or the end is not strictly
after the start. -/
def parseTimeRange (s : String) : Option (Nat × Nat) :=
  if s = "" then none
  else
    match matchTimeRange s with
    | none => none
    | some (h1, m1, p1, h2, m2, p2) =>
      let tstart := toMinutes h1 m1 p1
      let tstop := toMinutes h2 m2 p2
      if tstart < tstop then some (tstart, tstop) else none

/-- Embeds `_parse_days`: strip, split on runs of commas/whitespace, upper-case,
drop empty tokens, keep order. -/
def parseDays (s : String) : List String :=
  if s = "" then []
  else
    (((pyStrip s).data.splitOnP (fun c => c = ',' || isPySpace c)).filter
        (fun t => !t.isEmpty)).map (fun t => (⟨t.map Char.toUpper⟩ : String))

/-- Embeds `_times_overlap`: half-open interval overlap test. -/
def timesOverlap (a b : Nat × Nat) : Bool := a.1 < b.2 && b.1 < a.2

/-- Upper-cased three-letter month abbreviations, January first. -/
def monthAbbrevs : List (List Char) :=
  [['J','A','N'], ['F','E','B'], ['M','A','R'], ['A','P','R'], ['M','A','Y'],
   ['J','U','N'], ['J','U','L'], ['A','U','G'], ['S','E','P'], ['O','C','T'],
   ['N','O','V'], ['D','E','C']]

/-- Month number (1-12) of an abbreviation, after upper-casing, as
`datetime.strptime`'s case-insensitive `%b` resolves it. -/
def monthOfAbbrev (cs : List Char) : Option Nat :=
  match (monthAbbrevs.indexOf? (cs.map Char.toUpper)) with
  | some i => some (i + 1)
  | none => none

/-- Proleptic Gregorian leap year, as `datetime` uses. -/
def isLeapYear (y : Nat) : Bool :=
  y % 4 = 0 && (y % 100 ≠ 0 || y % 400 = 0)

def daysInMonth (y m : Nat) : Nat :=
  if m = 2 then (if isLeapYear y then 29 else 28)
  else if m = 4 || m = 6 || m = 9 || m = 11 then 30
  else 31

/-- Zero-padded two-digit rendering, Python `f"{n:02d}"` for `n ≥ 0`. -/
def pad2 (n : Nat) : String := if n < 10 then "0" ++ toString n else toString n

/-- Zero-padded four-digit rendering, as in `date.isoformat()` years. -/
def pad4 (n : Nat) : String :=
  (if n < 10 then "000" else if n < 100 then "00" else if n < 1000 then "0" else "")
    ++ toString n

/-- Embeds `date.isoformat()`: YYYY-MM-DD. -/
def isoDate (y m d : Nat) : String := pad4 y ++ "-" ++ pad2 m ++ "-" ++ pad2 d

/-- Regex fragment `(\d{2}-[A-Za-z]{3}-\d{4})` of `_parse_date_range`:
day digits, month letters and year digits of one date token. -/
def matchDateToken : List Char → Option ((Nat × List Char × Nat) × List Char)
  | d1 :: d2 :: '-' :: a1 :: a2 :: a3 :: '-' :: y1 :: y2 :: y3 :: y4 :: rest =>
      if d1.isDigit && d2.isDigit && a1.isAlpha && a2.isAlpha && a3.isAlpha &&
          y1.isDigit && y2.isDigit && y3.isDigit && y4.isDigit then
        some ((digitsToNat [d1, d2], [a1, a2, a3], digitsToNat [y1, y2, y3, y4]), rest)
      else none
  | _ => none

/-- Regex fragment `\s+to\s+`: at least one space, the literal `to`
(case sensitive), at least one space. -/
def matchToSep : List Char → Option (List Char)
  | c :: rest =>
      if isPySpace c then
        match rest.dropWhile isPySpace with
        | 't' :: 'o' :: r2 =>
          match r2 with
          | d :: r3 => if isPySpace d then some (r3.dropWhile isPySpace) else none
          | [] => none
        | _ => none
      else none
  | [] => none

/-- Embeds `datetime.strptime(text, "%d-%b-%Y")` on an already regex-shaped token:
resolve the month abbreviation and validate the calendar date
(year at least 1, day between 1 and the month's length). -/
def strptimeDMY (t : Nat × List Char × Nat) : Option (Nat × Nat × Nat) :=
  match monthOfAbbrev t.2.1 with
  | none => none
  | some m =>
      if 1 ≤ t.2.2 ∧ 1 ≤ t.1 ∧ t.1 ≤ daysInMonth t.2.2 m then
        some (t.2.2, m, t.1)
      else none

/-- Embeds `_parse_date_range`: `"DD-Mon-YYYY to DD-Mon-YYYY"` (with `re.match`,
so trailing text is allowed) to a pair of ISO dates, `none` on any parse
or calendar failure. -/
def parseDateRange (s : String) : Option (String × String) :=
  if s = "" then none
  else
    match matchDateToken (s.data.dropWhile isPySpace) with
    | none => none
    | some (t1, r1) =>
      match matchToSep r1 with
      | none => none
      | some r2 =>
        match matchDateToken r2 with
        | none => none
        | some (t2, _) =>
          match strptimeDMY t1, strptimeDMY t2 with
          | some (y1, m1, d1), some (y2, m2, d2) =>
              some (isoDate y1 m1 d1, isoDate y2 m2 d2)
          | _, _ => none

/-- One scraped course-offering record: the raw string fields of a row.
`sectionId` is the `"section"` key of the Python dict. -/
structure Row where
  term : String
  crn : String
  course : String
  sectionId : String
  title : String
  course_type : String
  meeting_dates : String
  time : String
  days : String
  hours : String
  room : String
  instructor : String
  seats : String
  enrolled : String
deriving DecidableEq, Repr, Inhabited

/-- The `"normalized" -> "time"` block process_rows attaches. -/
structure NormTime where
  start_24 : String
  end_24 : String
  start_minutes : Option Nat
  end_minutes : Option Nat
deriving DecidableEq, Repr, Inhabited

/-- The `"normalized" -> "days"` block. -/
structure NormDays where
  list : List String
  canonical : String
deriving DecidableEq, Repr, Inhabited

/-- The `"normalized" -> "dates"` block (`dstart`/`dend` are its
`"start"`/`"end"` keys). -/
structure NormDates where
  dstart : String
  dend : String
deriving DecidableEq, Repr, Inhabited

structure Normalized where
  time : NormTime
  days : NormDays
  dates : NormDates
deriving DecidableEq, Repr, Inhabited

/-- A processed record: the raw fields plus every derived field that
`process_rows` adds.  `lowerCrosslist` is the `"lower-crosslist"` key. -/
structure ProcRow where
  raw : Row
  normalized : Normalized
  gta_eligible : Bool
  crosslist : String
  lowerCrosslist : Bool
  total_seats : Int
  total_enrollment : Int
  conflicts : String
deriving DecidableEq, Repr, Inhabited

/-- The course-type markers of `_is_gta_eligible`. -/
def gtaTokens : List String := ["lecture", "lab", "online", "distance"]

/-- Embeds `_is_gta_eligible`: positive seat count and a lecture/lab/online/distance
marker in the lower-cased course type. -/
def isGtaEligible (r : Row) : Bool :=
  if pyToInt r.seats ≤ 0 then false
  else gtaTokens.any (fun t => containsRun t.data (pyLower r.course_type).data)

/-- Python `",".join(l)`. -/
def joinComma (l : List String) : String :=
  ⟨[','].intercalate (l.map String.data)⟩

/-- Python `s.split(",")`. -/
def splitComma (s : String) : List String :=
  (s.data.splitOn ',').map (fun cs => (⟨cs⟩ : String))

/-- A comma-joined CRN list read back, the way `process_rows` itself reads
the `crosslist` field for sibling exclusion: the empty string is the empty
list, anything else is split on commas. -/
def csvList (s : String) : List String := if s = "" then [] else splitComma s

/-- Code-point lexicographic order on strings, as Python compares `str`. -/
def strLe (a b : String) : Prop := a.data ≤ b.data

instance : DecidableRel strLe :=
  fun a b => inferInstanceAs (Decidable (a.data ≤ b.data))

instance : IsTotal String strLe := ⟨fun a b => le_total a.data b.data⟩

instance : IsTrans String strLe := ⟨fun _ _ _ h1 h2 => le_trans h1 h2⟩

instance : IsAntisymm String strLe :=
  ⟨fun _ _ h1 h2 => String.ext (le_antisymm h1 h2)⟩

/-- Python `sorted` on a list of strings (stable; insertion sort is stable
and any two stable sorts for the same total preorder agree). -/
def sortStrings (l : List String) : List String := List.insertionSort strLe l

/-- Crosslist grouping key `(term, time, days, instructor)`, stripped, from
the grouping loop of `process_rows`. -/
def xKey (r : Row) : String × String × String × String :=
  (pyStrip r.term, pyStrip r.time, pyStrip r.days, pyStrip r.instructor)

/-- All four grouping fields non-empty: the row takes part in crosslist
grouping (`if term and time and days and instructor`). -/
def xKeyComplete (r : Row) : Bool :=
  pyStrip r.term != "" && pyStrip r.time != "" &&
  pyStrip r.days != "" && pyStrip r.instructor != ""

/-- The crosslist group a row belongs to: every row of the batch with the
same grouping key.  (`xlist_groups` partitions the complete-key rows by
key; a row's group is the entry its key maps to.) -/
def xGroup (rows : List Row) (r : Row) : List Row :=
  rows.filter (fun s => decide (xKey s = xKey r))

/-- Embeds `crns_in_group`: the non-empty stripped CRNs of a group, in order. -/
def groupCrns (g : List Row) : List String :=
  (g.map (fun s => pyStrip s.crn)).filter (fun c => c != "")

/-- Embeds `total_seats` accumulated over a group. -/
def groupSeats (g : List Row) : Int := (g.map (fun s => pyToInt s.seats)).sum

/-- Embeds `total_enrolled` accumulated over a group. -/
def groupEnrolled (g : List Row) : Int := (g.map (fun s => pyToInt s.enrolled)).sum

/-- Python `min` over a list of naturals, `none` when empty. -/
def minFold (l : List Nat) : Option Nat :=
  l.foldr (fun n acc => some (match acc with | none => n | some m => Nat.min n m)) none

/-- Embeds `min_number`: least parsed course number of a group, `none` when no
member's course number parses. -/
def groupMin (g : List Row) : Option Nat :=
  minFold (g.filterMap (fun s => courseNumber s.course))

/-- Whether the row sits in a crosslist group with at least two members
(the `len(indices) < 2: continue` guard). -/
def inXGroup (rows : List Row) (r : Row) : Prop :=
  xKeyComplete r = true ∧ 2 ≤ (xGroup rows r).length

instance (rows : List Row) (r : Row) : Decidable (inXGroup rows r) :=
  inferInstanceAs (Decidable (_ ∧ _))

/-- Net effect of the crosslist pass on one row's `crosslist` field: the
other CRNs of its group, sorted and comma-joined; `""` for rows without a
multi-member group (the `setdefault` default). -/
def crosslistOf (rows : List Row) (r : Row) : String :=
  if inXGroup rows r then
    let others := (groupCrns (xGroup rows r)).filter (fun c => c != pyStrip r.crn)
    if others.isEmpty then "" else joinComma (sortStrings others)
  else ""

/-- Net effect on `lower-crosslist`: in a multi-member group, true when no
member's course number parses, otherwise true exactly when this row's
number parses and equals the group minimum; `True` by `setdefault` for all
other rows. -/
def lowerCrosslistOf (rows : List Row) (r : Row) : Bool :=
  if inXGroup rows r then
    match groupMin (xGroup rows r) with
    | none => true
    | some m =>
      match courseNumber r.course with
      | some n => n == m
      | none => false
  else true

/-- Net effect on `total_seats`: the group sum when in a multi-member group
and the sum is non-zero (Python truthiness of `total_seats`), otherwise the
row's own parsed seats. -/
def totalSeatsOf (rows : List Row) (r : Row) : Int :=
  if inXGroup rows r then
    (if groupSeats (xGroup rows r) ≠ 0 then groupSeats (xGroup rows r)
     else pyToInt r.seats)
  else pyToInt r.seats

/-- Net effect on `total_enrollment`, symmetric to `totalSeatsOf`. -/
def totalEnrollmentOf (rows : List Row) (r : Row) : Int :=
  if inXGroup rows r then
    (if groupEnrolled (xGroup rows r) ≠ 0 then groupEnrolled (xGroup rows r)
     else pyToInt r.enrolled)
  else pyToInt r.enrolled

/-- Sibling CRN list read by the conflict pass:
`set(r.get("crosslist","").split(",")) if r.get("crosslist") else set()`. -/
def sibList (rows : List Row) (r : Row) : List String :=
  csvList (crosslistOf rows r)

/-- The condition under which the pairwise conflict loop links two rows:
same (stripped) term, both time ranges parse, both day lists non-empty and
intersecting, time ranges overlap, neither is a crosslist sibling of the
other, and both stripped CRNs are non-empty and different.  The loop runs
over unordered pairs and adds each CRN to the other's set, so the condition
is symmetric in the two rows. -/
def confPred (rows : List Row) (a b : Row) : Bool :=
  match parseTimeRange a.time, parseTimeRange b.time with
  | some ta, some tb =>
    let da := parseDays a.days
    let db := parseDays b.days
    let ca := pyStrip a.crn
    let cb := pyStrip b.crn
    pyStrip a.term == pyStrip b.term &&
    !da.isEmpty && !db.isEmpty &&
    da.any (fun d => db.contains d) &&
    timesOverlap ta tb &&
    !((sibList rows a).contains cb) && !((sibList rows b).contains ca) &&
    ca != "" && cb != "" && ca != cb
  | _, _ => false

/-- Net effect of the conflict pass on one row: the set of CRNs of rows it
conflicts with, sorted and comma-joined.  (`confPred rows r s` is false
when `s` has the same stripped CRN as `r` — in particular for `r` itself —
so filtering the whole batch equals the loop's `j ≠ i` pairing; the Python
`set` is the deduplicated list, and `sorted` orders it.) -/
def conflictsOf (rows : List Row) (r : Row) : String :=
  joinComma (sortStrings
    (((rows.filter (confPred rows r)).map (fun s => pyStrip s.crn)).dedup))

/-- The `"normalized" -> "time"` block of one row. -/
def normTimeOf (r : Row) : NormTime :=
  match parseTimeRange r.time with
  | some t =>
      { start_24 := pad2 (t.1 / 60) ++ ":" ++ pad2 (t.1 % 60)
        end_24 := pad2 (t.2 / 60) ++ ":" ++ pad2 (t.2 % 60)
        start_minutes := some t.1
        end_minutes := some t.2 }
  | none =>
      { start_24 := "", end_24 := "", start_minutes := none, end_minutes := none }

/-- The `"normalized" -> "days"` block of one row. -/
def normDaysOf (r : Row) : NormDays :=
  let l := parseDays r.days
  { list := l, canonical := String.join l }

/-- The `"normalized" -> "dates"` block of one row. -/
def normDatesOf (r : Row) : NormDates :=
  match parseDateRange r.meeting_dates with
  | some p => { dstart := p.1, dend := p.2 }
  | none => { dstart := "", dend := "" }

def normalizedOf (r : Row) : Normalized :=
  { time := normTimeOf r, days := normDaysOf r, dates := normDatesOf r }

/-- The complete annotation one row receives from `process_rows`: raw
fields unchanged, plus every derived field as the net effect of the
normalization, eligibility, crosslist and conflict passes over the batch. -/
def deriveRow (rows : List Row) (r : Row) : ProcRow :=
  { raw := r
    normalized := normalizedOf r
    gta_eligible := isGtaEligible r
    crosslist := crosslistOf rows r
    lowerCrosslist := lowerCrosslistOf rows r
    total_seats := totalSeatsOf rows r
    total_enrollment := totalEnrollmentOf rows r
    conflicts := conflictsOf rows r }

/-- Embeds `_section_sort_key` encoded for a flat lexicographic comparison:
an all-digit section is `(0, value, [])`, anything else `(1, 0, text)`,
matching Python's `(0, int(section))` versus `(1, section)`. -/
def sectionKey (s : String) : Nat × Nat × List Char :=
  let t := pyStrip s
  if !t.data.isEmpty && t.data.all Char.isDigit then (0, digitsToNat t.data, [])
  else (1, 0, t.data)

/-- Lexicographic key domain of `_row_sort_key`: term, course number (with
the `10**9` fallback), section class, numeric section, textual section,
CRN. -/
abbrev RowKey :=
  Lex (List Char × Lex (Nat × Lex (Nat × Lex (Nat × Lex (List Char × List Char)))))

/-- Embeds `_row_sort_key`: `(term, num if parsed else 10**9, section key, crn)`,
all text stripped. -/
def rowKey (r : Row) : RowKey :=
  let sk := sectionKey r.sectionId
  toLex ((pyStrip r.term).data,
    toLex ((courseNumber r.course).getD 1000000000,
      toLex (sk.1, toLex (sk.2.1, toLex (sk.2.2, (pyStrip r.crn).data)))))

/-- The comparison `rows.sort(key=_row_sort_key)` sorts by. -/
def rowLe (p q : ProcRow) : Prop := rowKey p.raw ≤ rowKey q.raw

instance : DecidableRel rowLe :=
  fun p q => inferInstanceAs (Decidable (rowKey p.raw ≤ rowKey q.raw))

instance : IsTotal ProcRow rowLe := ⟨fun a b => le_total (rowKey a.raw) (rowKey b.raw)⟩

instance : IsTrans ProcRow rowLe := ⟨fun _ _ _ h1 h2 => le_trans h1 h2⟩

/-- Embeds `process_rows`: annotate every row of the batch in place (modelled as
the net per-row effect `deriveRow`), then sort by `_row_sort_key` with a
stable sort. -/
def processRows (rows : List Row) : List ProcRow :=
  List.insertionSort rowLe (rows.map (deriveRow rows))

/-- Lexicographic key domain of `_gta_sort_key` (no term component). -/
abbrev GtaKey := Lex (Nat × Lex (Nat × Lex (Nat × Lex (List Char × List Char))))

/-- Embeds `_gta_sort_key`: `(num if parsed else 10**9, section key, crn)`. -/
def gtaKey (r : Row) : GtaKey :=
  let sk := sectionKey r.sectionId
  toLex ((courseNumber r.course).getD 1000000000,
    toLex (sk.1, toLex (sk.2.1, toLex (sk.2.2, (pyStrip r.crn).data))))

/-- The comparison `sorted(eligible, key=_gta_sort_key)` sorts by. -/
def gtaLe (p q : ProcRow) : Prop := gtaKey p.raw ≤ gtaKey q.raw

instance : DecidableRel gtaLe :=
  fun p q => inferInstanceAs (Decidable (gtaKey p.raw ≤ gtaKey q.raw))

instance : IsTotal ProcRow gtaLe := ⟨fun a b => le_total (gtaKey a.raw) (gtaKey b.raw)⟩

instance : IsTrans ProcRow gtaLe := ⟨fun _ _ _ h1 h2 => le_trans h1 h2⟩

/-- Embeds `eligible`: processed rows with a true `gta_eligible` flag and a truthy
(non-empty, unstripped) `crn`. -/
def eligibleOf (rows : List ProcRow) : List ProcRow :=
  rows.filter (fun p => p.gta_eligible && p.raw.crn != "")

/-- The conflict set the matrix builder reads from a row:
`set(c for c in conflicts.split(",") if c)`. -/
def matrixConflictSet (s : String) : List String :=
  (splitComma s).filter (fun c => c != "")

/-- Embeds the `conflict_map` lookup.  The dict comprehension maps each stripped CRN
to the conflict set of the row bearing it, later rows overwriting earlier
ones — so the last row in sorted order with that CRN wins. -/
def conflictMapGet (sortedRows : List ProcRow) (c : String) : List String :=
  match sortedRows.reverse.find? (fun p => pyStrip p.raw.crn == c) with
  | some p => matrixConflictSet p.conflicts
  | none => []

/-- Embeds `sorted_rows`: the eligible rows ordered by `_gta_sort_key`. -/
def gtaSorted (rows : List ProcRow) : List ProcRow :=
  List.insertionSort gtaLe (eligibleOf rows)

/-- The CRN header/index order of the matrix: stripped CRNs of the sorted
eligible rows. -/
def gtaCrns (rows : List ProcRow) : List String :=
  (gtaSorted rows).map (fun p => pyStrip p.raw.crn)

/-- One TRUE/FALSE cell of the matrix: TRUE on equal CRNs, FALSE when the
column CRN is in the row CRN's conflict set, TRUE otherwise. -/
def gtaCell (sortedRows : List ProcRow) (rowCrn colCrn : String) : String :=
  if rowCrn == colCrn then "TRUE"
  else if (conflictMapGet sortedRows rowCrn).contains colCrn then "FALSE"
  else "TRUE"

/-- Embeds `write_gta_compatibility_matrix`, modelled as the grid of CSV cells it
writes: a header row `CRN :: crns`, then one row per CRN holding the CRN
and one TRUE/FALSE cell per column.  Returns `none` when there is no
eligible row (the function writes nothing and returns `None`). -/
def gtaMatrix (rows : List ProcRow) : Option (List (List String)) :=
  if (eligibleOf rows).isEmpty then none
  else
    some (("CRN" :: gtaCrns rows) ::
      (gtaCrns rows).map (fun rowCrn =>
        rowCrn :: (gtaCrns rows).map (fun colCrn => gtaCell (gtaSorted rows) rowCrn colCrn)))

/-- One per-term bucket of `main`: the processed rows whose stripped term
is `t`. -/
def termBucket (rows : List Row) (t : String) : List ProcRow :=
  (processRows rows).filter (fun p => pyStrip p.raw.term == t)

/-- Body cell `(i, j)` of the matrix artifact: row `i+1` (skipping the
header), column `j+1` (skipping the row's leading CRN). -/
def matrixCell (m : List (List String)) (i j : Nat) : Option String :=
  (m.get? (i + 1)).bind (fun row => row.get? (j + 1))

/-! ### Hypotheses used by the relational claims

The pairwise relations of the spec identify records by CRN, so the claims
about them live under well-formedness assumptions on the CRNs of a batch. -/

/-- Any two distinct records of the batch that share a (stripped) term have
different (stripped) CRNs. -/
def crnsUnique (rows : List Row) : Prop :=
  rows.Pairwise (fun a b => pyStrip a.term = pyStrip b.term →
    pyStrip a.crn ≠ pyStrip b.crn)

instance (rows : List Row) : Decidable (crnsUnique rows) :=
  inferInstanceAs (Decidable (List.Pairwise _ _))

/-- Every record bears a CRN: the stripped `crn` field is non-empty. -/
def crnsNonempty (rows : List Row) : Prop :=
  ∀ r ∈ rows, pyStrip r.crn ≠ ""

instance (rows : List Row) : Decidable (crnsNonempty rows) :=
  inferInstanceAs (Decidable (∀ r ∈ rows, _))

/-- No CRN contains a comma (a comma inside a CRN would make the
comma-joined `crosslist`/`conflicts` strings ambiguous). -/
def crnsCommaFree (rows : List Row) : Prop :=
  ∀ r ∈ rows, ',' ∉ (pyStrip r.crn).data

instance (rows : List Row) : Decidable (crnsCommaFree rows) :=
  inferInstanceAs (Decidable (∀ r ∈ rows, _))

/-! ### Bridge lemmas for the comma-joined lists -/

theorem ne_empty_iff_data {s : String} : s ≠ "" ↔ s.data ≠ [] := by
  constructor
  · intro h hd
    exact h (String.ext hd)
  · intro h hd
    exact h (by rw [hd])

/-- Splitting a comma-join recovers the list, provided every element is
non-empty and comma-free. -/
theorem csvList_joinComma {l : List String}
    (hne : ∀ c ∈ l, c ≠ "") (hcf : ∀ c ∈ l, ',' ∉ c.data) :
    csvList (joinComma l) = l := by
  rcases l with _ | ⟨hd, tl⟩
  · rfl
  · have hnil : (hd :: tl).map String.data ≠ [] := by simp
    have hmem : ∀ cs ∈ (hd :: tl).map String.data, ',' ∉ cs := by
      intro cs hcs
      rcases List.mem_map.1 hcs with ⟨c, hc, rfl⟩
      exact hcf c hc
    have hsplit := List.splitOn_intercalate ((hd :: tl).map String.data) ',' hmem hnil
    have hjne : joinComma (hd :: tl) ≠ "" := by
      intro h
      have hdata : [','].intercalate ((hd :: tl).map String.data) = [] := by
        have := congrArg String.data h
        simpa [joinComma] using this
      rw [hdata] at hsplit
      have : ([] : List Char) ∈ (hd :: tl).map String.data := by
        rw [← hsplit]; simp [List.splitOn]
      rcases List.mem_map.1 this with ⟨c, hc, hcd⟩
      exact (ne_empty_iff_data.1 (hne c hc)) hcd
    rw [csvList, if_neg hjne]
    show ((joinComma (hd :: tl)).data.splitOn ',').map _ = _
    have hj : (joinComma (hd :: tl)).data = [','].intercalate ((hd :: tl).map String.data) := rfl
    rw [hj, hsplit, List.map_map]
    exact (List.map_congr_left (fun a _ => rfl)).trans (List.map_id _)

/-- Membership in a sorted list of strings. -/
theorem mem_sortStrings {c : String} {l : List String} :
    c ∈ sortStrings l ↔ c ∈ l := List.mem_insertionSort strLe

/-! ### Characterizations of the derived relations -/

theorem mem_xGroup {rows : List Row} {r s : Row} :
    s ∈ xGroup rows r ↔ s ∈ rows ∧ xKey s = xKey r := by
  simp [xGroup, List.mem_filter]

theorem mem_groupCrns {c : String} {g : List Row} :
    c ∈ groupCrns g ↔ (∃ s ∈ g, pyStrip s.crn = c) ∧ c ≠ "" := by
  simp [groupCrns, List.mem_filter, List.mem_map, bne_iff_ne]

/-- The four grouping fields being non-empty is determined by the key. -/
theorem xKeyComplete_eq_of_xKey_eq {a b : Row} (h : xKey a = xKey b) :
    xKeyComplete a = xKeyComplete b := by
  have h1 : pyStrip a.term = pyStrip b.term := congrArg (fun k => k.1) h
  have h2 : pyStrip a.time = pyStrip b.time := congrArg (fun k => k.2.1) h
  have h3 : pyStrip a.days = pyStrip b.days := congrArg (fun k => k.2.2.1) h
  have h4 : pyStrip a.instructor = pyStrip b.instructor := congrArg (fun k => k.2.2.2) h
  simp [xKeyComplete, h1, h2, h3, h4]

theorem xGroup_eq_of_xKey_eq (rows : List Row) {a b : Row} (h : xKey a = xKey b) :
    xGroup rows a = xGroup rows b := by
  unfold xGroup
  exact List.filter_congr (fun s _ => by simp [h])

theorem inXGroup_iff_of_xKey_eq {rows : List Row} {a b : Row} (h : xKey a = xKey b) :
    inXGroup rows a ↔ inXGroup rows b := by
  unfold inXGroup
  rw [xKeyComplete_eq_of_xKey_eq h, xGroup_eq_of_xKey_eq rows h]

/-- Membership in a row's crosslist list, read back from the comma-joined
field: exactly the non-empty CRNs of the other members of its multi-member
group. -/
theorem mem_crosslistOf {rows : List Row} {r : Row} {c : String}
    (hcf : crnsCommaFree rows) :
    c ∈ csvList (crosslistOf rows r) ↔
      inXGroup rows r ∧ (∃ s ∈ xGroup rows r, pyStrip s.crn = c) ∧
        c ≠ "" ∧ c ≠ pyStrip r.crn := by
  unfold crosslistOf
  by_cases h : inXGroup rows r
  · rw [if_pos h]
    set others := (groupCrns (xGroup rows r)).filter (fun c => c != pyStrip r.crn) with hodef
    have mem_others : ∀ x, x ∈ others ↔
        ((∃ s ∈ xGroup rows r, pyStrip s.crn = x) ∧ x ≠ "") ∧ x ≠ pyStrip r.crn := by
      intro x
      rw [hodef, List.mem_filter, mem_groupCrns]
      simp [bne_iff_ne]
    by_cases ho : others.isEmpty
    · rw [if_pos ho]
      have hoe : others = [] := List.isEmpty_iff.1 ho
      rw [show csvList "" = [] from rfl]
      simp only [List.not_mem_nil, false_iff]
      rintro ⟨-, ⟨s, hs, hcrn⟩, hne, hnr⟩
      have : c ∈ others := (mem_others c).2 ⟨⟨⟨s, hs, hcrn⟩, hne⟩, hnr⟩
      rw [hoe] at this
      exact List.not_mem_nil c this
    · rw [if_neg ho]
      rw [csvList_joinComma ?hne ?hcf2]
      case hne =>
        intro x hx
        exact ((mem_others x).1 (mem_sortStrings.1 hx)).1.2
      case hcf2 =>
        intro x hx
        rcases ((mem_others x).1 (mem_sortStrings.1 hx)).1.1 with ⟨s, hs, rfl⟩
        exact hcf s (List.mem_of_mem_filter hs)
      rw [mem_sortStrings, mem_others]
      tauto
  · rw [if_neg h]
    rw [show csvList "" = [] from rfl]
    simp only [List.not_mem_nil, false_iff]
    rintro ⟨hg, -⟩
    exact h hg

theorem timesOverlap_symm (x y : Nat × Nat) : timesOverlap x y = timesOverlap y x := by
  simp [timesOverlap, Bool.and_comm]

/-- Propositional form of the conflict condition. -/
theorem confPred_iff {rows : List Row} {a b : Row} :
    confPred rows a b = true ↔
      ∃ ta tb, parseTimeRange a.time = some ta ∧ parseTimeRange b.time = some tb ∧
        pyStrip a.term = pyStrip b.term ∧
        parseDays a.days ≠ [] ∧ parseDays b.days ≠ [] ∧
        (∃ d ∈ parseDays a.days, d ∈ parseDays b.days) ∧
        timesOverlap ta tb = true ∧
        pyStrip b.crn ∉ sibList rows a ∧ pyStrip a.crn ∉ sibList rows b ∧
        pyStrip a.crn ≠ "" ∧ pyStrip b.crn ≠ "" ∧
        pyStrip a.crn ≠ pyStrip b.crn := by
  unfold confPred
  cases h1 : parseTimeRange a.time with
  | none => simp [h1]
  | some ta =>
    cases h2 : parseTimeRange b.time with
    | none => simp [h1, h2]
    | some tb =>
      simp only [h1, h2, Option.some.injEq, Bool.and_eq_true, beq_iff_eq, bne_iff_ne,
        Bool.not_eq_true', ← Bool.not_eq_true, List.contains, List.elem_iff,
        List.any_eq_true, List.isEmpty_iff, exists_eq_left, exists_eq_left']
      constructor
      · intro h
        tauto
      · rintro ⟨ta2, tb2, rfl, rfl, h⟩
        tauto

/-- The conflict condition is symmetric in the two rows. -/
theorem confPred_symm (rows : List Row) (a b : Row) :
    confPred rows a b = confPred rows b a := by
  rw [Bool.eq_iff_iff, confPred_iff, confPred_iff]
  constructor <;>
    rintro ⟨ta, tb, h1, h2, ht, hda, hdb, ⟨d, hd1, hd2⟩, hov, hs1, hs2, hca, hcb, hne⟩ <;>
    exact ⟨tb, ta, h2, h1, ht.symm, hdb, hda, ⟨d, hd2, hd1⟩,
      (timesOverlap_symm tb ta).symm ▸ (timesOverlap_symm ta tb ▸ hov), hs2, hs1,
      hcb, hca, hne.symm⟩

/-- The conflict condition forces the second row's CRN to be non-empty. -/
theorem confPred_crn_ne {rows : List Row} {a b : Row} (h : confPred rows a b = true) :
    pyStrip b.crn ≠ "" := by
  rcases confPred_iff.1 h with ⟨_, _, _, _, _, _, _, _, _, _, _, _, hcb, _⟩
  exact hcb

/-- Membership in a row's conflicts list, read back from the comma-joined
field: exactly the CRNs of rows satisfying the conflict condition with it. -/
theorem mem_conflictsOf {rows : List Row} {r : Row} {c : String}
    (hcf : crnsCommaFree rows) :
    c ∈ csvList (conflictsOf rows r) ↔
      ∃ s ∈ rows, confPred rows r s = true ∧ pyStrip s.crn = c := by
  unfold conflictsOf
  rw [csvList_joinComma ?hne ?hcf2]
  case hne =>
    intro x hx
    rcases List.mem_map.1 (List.mem_dedup.1 (mem_sortStrings.1 hx)) with ⟨s, hs, rfl⟩
    exact confPred_crn_ne (List.of_mem_filter hs)
  case hcf2 =>
    intro x hx
    rcases List.mem_map.1 (List.mem_dedup.1 (mem_sortStrings.1 hx)) with ⟨s, hs, rfl⟩
    exact hcf s (List.mem_of_mem_filter hs)
  rw [mem_sortStrings, List.mem_dedup]
  simp only [List.mem_map, List.mem_filter]
  constructor
  · rintro ⟨s, ⟨hs, hp⟩, rfl⟩
    exact ⟨s, hs, hp, rfl⟩
  · rintro ⟨s, hs, hp, rfl⟩
    exact ⟨s, ⟨hs, hp⟩, rfl⟩

/-- CRN uniqueness identifies a record from its term and CRN. -/
theorem crn_inj {rows : List Row} (hu : crnsUnique rows) :
    ∀ a ∈ rows, ∀ b ∈ rows, pyStrip a.term = pyStrip b.term →
      pyStrip a.crn = pyStrip b.crn → a = b := by
  have hsym : Symmetric (fun a b : Row =>
      pyStrip a.term = pyStrip b.term → pyStrip a.crn ≠ pyStrip b.crn) := by
    intro a b h ht hc
    exact h ht.symm hc.symm
  intro a ha b hb ht hc
  by_contra hne
  exact (List.Pairwise.forall hsym hu ha hb hne) ht hc

/-- Every processed record is the annotation of some input record. -/
theorem mem_processRows {rows : List Row} {p : ProcRow} :
    p ∈ processRows rows ↔ ∃ r ∈ rows, p = deriveRow rows r := by
  unfold processRows
  rw [List.mem_insertionSort]
  simp [List.mem_map, eq_comm]

/-- The conflict condition forces equal stripped terms. -/
theorem confPred_term {rows : List Row} {a b : Row} (h : confPred rows a b = true) :
    pyStrip a.term = pyStrip b.term := by
  rcases confPred_iff.1 h with ⟨_, _, _, _, ht, _⟩
  exact ht

/-- Under CRN uniqueness, a row's crosslist list contains `b`'s CRN exactly
when `b` is another member of its (multi-member) group. -/
theorem mem_crosslistOf_iff {rows : List Row} {a b : Row}
    (hb : b ∈ rows) (hu : crnsUnique rows) (hcf : crnsCommaFree rows)
    (ht : pyStrip a.term = pyStrip b.term) :
    pyStrip b.crn ∈ csvList (crosslistOf rows a) ↔
      inXGroup rows a ∧ xKey b = xKey a ∧ pyStrip b.crn ≠ "" ∧
        pyStrip b.crn ≠ pyStrip a.crn := by
  rw [mem_crosslistOf hcf]
  constructor
  · rintro ⟨hg, ⟨s, hs, hcrn⟩, hne, hnr⟩
    have hsrows : s ∈ rows := (mem_xGroup.1 hs).1
    have hskey : xKey s = xKey a := (mem_xGroup.1 hs).2
    have hsterm : pyStrip s.term = pyStrip a.term := congrArg (fun k => k.1) hskey
    have hsb : s = b := crn_inj hu s hsrows b hb (hsterm.trans ht) hcrn
    exact ⟨hg, hsb ▸ hskey, hne, hnr⟩
  · rintro ⟨hg, hkey, hne, hnr⟩
    exact ⟨hg, ⟨b, mem_xGroup.2 ⟨hb, hkey⟩, rfl⟩, hne, hnr⟩

/-- Under CRN uniqueness, a row's conflicts list contains `b`'s CRN exactly
when the conflict condition links the two rows. -/
theorem mem_conflictsOf_iff {rows : List Row} {a b : Row}
    (hb : b ∈ rows) (hu : crnsUnique rows) (hcf : crnsCommaFree rows)
    (ht : pyStrip a.term = pyStrip b.term) :
    pyStrip b.crn ∈ csvList (conflictsOf rows a) ↔ confPred rows a b = true := by
  rw [mem_conflictsOf hcf]
  constructor
  · rintro ⟨s, hs, hp, hcrn⟩
    have hterm_s : pyStrip a.term = pyStrip s.term := confPred_term hp
    have hsb : s = b := crn_inj hu s hs b hb (hterm_s.symm.trans ht) hcrn
    exact hsb ▸ hp
  · intro h
    exact ⟨b, hb, h, rfl⟩

/-! ### Concrete batches for counterexamples and witnesses -/

/-- Builds a row for concrete test batches (title, meeting dates, weekly
hours and room left empty — none of them feeds any derived field). -/
def mkRow (term crn course sec ctype time days instr seats enrolled : String) : Row :=
  { term := term, crn := crn, course := course, sectionId := sec, title := "",
    course_type := ctype, meeting_dates := "", time := time, days := days,
    hours := "", room := "", instructor := instr, seats := seats, enrolled := enrolled }

/-! ### Claim C6: the time-range parser -/

/-- C6: on text matched by the `_parse_time_range` regex (captured groups
`h1:m1 ap1 - h2:m2 ap2`), the parser returns the pair of
`(hour mod 12) * 60 + minutes (+720 when PM)` endpoints provided the end is
strictly after the start, and `none` otherwise; unmatched text and the
empty string give `none` rather than an error. -/
theorem parseTimeRange_spec :
    (∀ s h1 m1 p1 h2 m2 p2, matchTimeRange s = some (h1, m1, p1, h2, m2, p2) →
      parseTimeRange s =
        (if (h1 % 12) * 60 + m1 + (if p1 then 720 else 0) <
            (h2 % 12) * 60 + m2 + (if p2 then 720 else 0) then
          some ((h1 % 12) * 60 + m1 + (if p1 then 720 else 0),
            (h2 % 12) * 60 + m2 + (if p2 then 720 else 0))
        else none)) ∧
    (∀ s, matchTimeRange s = none → parseTimeRange s = none) ∧
    parseTimeRange "" = none := by
  have hto : ∀ h mi pm, toMinutes h mi pm = (h % 12) * 60 + mi + (if pm then 720 else 0) := by
    intro h mi pm
    cases pm
    · simp [toMinutes]
    · simp only [toMinutes, if_true]
      ring
  refine ⟨?_, ?_, rfl⟩
  · intro s h1 m1 p1 h2 m2 p2 hm
    by_cases hs : s = ""
    · rw [hs] at hm
      exact absurd hm (by rw [show matchTimeRange "" = none from rfl]; simp)
    · unfold parseTimeRange
      rw [if_neg hs, hm]
      simp only [hto]
  · intro s hm
    by_cases hs : s = ""
    · simp [parseTimeRange, hs]
    · unfold parseTimeRange
      rw [if_neg hs, hm]

/-- Witness for C6 at `"10:00AM-11:50AM"`. -/
theorem parseTimeRange_spec_witness :
    matchTimeRange "10:00AM-11:50AM" = some (10, 0, false, 11, 50, false) ∧
    parseTimeRange "10:00AM-11:50AM" =
      (if (10 % 12) * 60 + 0 + (if false then 720 else 0) <
          (11 % 12) * 60 + 50 + (if false then 720 else 0) then
        some ((10 % 12) * 60 + 0 + (if false then 720 else 0),
          (11 % 12) * 60 + 50 + (if false then 720 else 0))
      else none) :=
  ⟨by decide,
    parseTimeRange_spec.1 "10:00AM-11:50AM" 10 0 false 11 50 false (by decide)⟩

/-! ### Claim C7: GTA eligibility -/

def rowC7 : Row := mkRow "202610" "1" "C 101" "001" "Lecture" "" "" "" "30" "0"

def exC7 : List Row := [rowC7]

/-- C7: a processed record's `gta_eligible` flag is true iff its seats text
coerces to a positive integer and its lower-cased course type contains a
lecture/lab/online/distance marker; the flag depends on no other field;
the three scenario evaluations of the spec. -/
theorem gta_eligible_spec :
    (∀ rows : List Row, ∀ p ∈ processRows rows,
      (p.gta_eligible = true ↔
        0 < pyToInt p.raw.seats ∧
          (gtaTokens.any fun t => containsRun t.data (pyLower p.raw.course_type).data) = true)) ∧
    (∀ r₁ r₂ : Row, r₁.seats = r₂.seats → r₁.course_type = r₂.course_type →
      isGtaEligible r₁ = isGtaEligible r₂) ∧
    isGtaEligible (mkRow "" "" "" "" "Lecture" "" "" "" "0" "") = false ∧
    isGtaEligible (mkRow "" "" "" "" "Seminar" "" "" "" "30" "") = false ∧
    isGtaEligible (mkRow "" "" "" "" "Online/Distance" "" "" "" "30" "") = true := by
  refine ⟨?_, ?_, by decide, by decide, by decide⟩
  · intro rows p hp
    rcases mem_processRows.1 hp with ⟨r, hr, rfl⟩
    simp only [show (deriveRow rows r).raw = r from rfl]
    show isGtaEligible r = true ↔ _
    unfold isGtaEligible
    by_cases h : pyToInt r.seats ≤ 0
    · rw [if_pos h]
      constructor
      · intro hf
        exact absurd hf (by simp)
      · rintro ⟨hpos, -⟩
        omega
    · rw [if_neg h]
      have hpos : 0 < pyToInt r.seats := by omega
      simp [hpos]
  · intro r₁ r₂ hs hc
    unfold isGtaEligible
    rw [hs, hc]

/-- Witness for C7: the single-row batch `exC7` is eligible. -/
theorem gta_eligible_spec_witness :
    (deriveRow exC7 rowC7).gta_eligible = true ↔
      0 < pyToInt (deriveRow exC7 rowC7).raw.seats ∧
        (gtaTokens.any fun t =>
          containsRun t.data (pyLower (deriveRow exC7 rowC7).raw.course_type).data) = true :=
  gta_eligible_spec.1 exC7 (deriveRow exC7 rowC7) (by decide)

/-! ### Claim C10: raw fields are preserved -/

/-- Annotation preserves the raw fields position by position. -/
theorem map_raw_deriveRow (rows : List Row) :
    rows.map (fun r => (deriveRow rows r).raw) = rows :=
  (List.map_congr_left (fun _ _ => rfl)).trans (List.map_id rows)

/-- The raw fields of the output are a permutation of the input rows. -/
theorem raw_processRows_perm (rows : List Row) :
    ((processRows rows).map ProcRow.raw).Perm rows := by
  have h1 : (processRows rows).Perm (rows.map (deriveRow rows)) :=
    List.perm_insertionSort rowLe _
  have h2 := h1.map ProcRow.raw
  rw [List.map_map] at h2
  exact h2.trans
    (by rw [show rows.map (ProcRow.raw ∘ deriveRow rows) = rows from map_raw_deriveRow rows])

/-- C10: annotation leaves every raw field of every record unchanged (the
annotated record projects back to the input record position by position),
and the sorted output is a permutation of the annotated inputs, so
`process_rows` changes no raw field value of any record; the only new data
are the derived fields of `ProcRow`. -/
theorem processRows_frame :
    ∀ rows : List Row,
      rows.map (fun r => (deriveRow rows r).raw) = rows ∧
      ((processRows rows).map ProcRow.raw).Perm rows :=
  fun rows => ⟨map_raw_deriveRow rows, raw_processRows_perm rows⟩

/-! ### Claim C8: the output ordering -/

/-- The sort-key order asserted by the claim: course-number component with
unparseable course numbers after every parseable one (`⊤`), the other
components as in `_row_sort_key`. -/
def claimKeyC8 (r : Row) :
    Lex (List Char × Lex (WithTop Nat × Lex (Nat × Lex (Nat × Lex (List Char × List Char))))) :=
  let sk := sectionKey r.sectionId
  toLex ((pyStrip r.term).data,
    toLex (((courseNumber r.course).map (fun n => (n : WithTop Nat))).getD ⊤,
      toLex (sk.1, toLex (sk.2.1, toLex (sk.2.2, (pyStrip r.crn).data)))))

def exC8 : List Row :=
  [mkRow "T" "1" "COMP 9999999999" "001" "L" "" "" "I" "5" "5",
   mkRow "T" "2" "NOPE" "001" "L" "" "" "I" "5" "5"]

/-- C8 counterexample: `_row_sort_key` uses the finite sentinel `10**9` for
unparseable course numbers, so the record with parseable course number
9999999999 sorts after the record with an unparseable course number, and
the output is not ordered by the claimed key (unparseable strictly last). -/
theorem row_order_claim_counterexample :
    (processRows exC8).length = 2 ∧
    ¬ (claimKeyC8 ((processRows exC8).getD 0 default).raw ≤
        claimKeyC8 ((processRows exC8).getD 1 default).raw) := by
  decide

/-- C8 amended: the output of `process_rows` is sorted by
`(stripped term, course number with the 10**9 fallback for unparseable
numbers, section key, stripped CRN)` — so unparseable course numbers order
like the value `10**9`, after every parseable number below `10**9` but
before larger parseable numbers. -/
theorem processRows_sorted : ∀ rows : List Row, (processRows rows).Pairwise rowLe :=
  fun _ => List.sorted_insertionSort rowLe _

/-! ### Claim C2: crosslist group totals -/

def exC2 : List Row :=
  [mkRow "T" "1" "C 101" "001" "L" "10:00AM-11:00AM" "MW" "I" "5" "7",
   mkRow "T" "2" "C 102" "002" "L" "10:00AM-11:00AM" "MW" "I" "-5" "-7"]

/-- C2 counterexample: seat texts "5" and "-5" form one crosslist group
whose seat sum is 0; Python's `total_seats if total_seats else own` then
falls back to each record's own value, so a grouped record's `total_seats`
(and `total_enrollment`) differs from the group sum. -/
theorem totals_claim_counterexample :
    (processRows exC2).length = 2 ∧
    inXGroup exC2 ((processRows exC2).getD 0 default).raw ∧
    ((processRows exC2).getD 0 default).total_seats ≠
      groupSeats (xGroup exC2 ((processRows exC2).getD 0 default).raw) ∧
    ((processRows exC2).getD 0 default).total_enrollment ≠
      groupEnrolled (xGroup exC2 ((processRows exC2).getD 0 default).raw) := by
  decide

/-- C2 amended: a record in a crosslist group of at least two members gets
the group's summed seats/enrollment when that sum is non-zero and its own
parsed value when the sum is zero; any other record gets its own parsed
values. -/
theorem totals_spec :
    ∀ rows : List Row, ∀ p ∈ processRows rows,
      (inXGroup rows p.raw →
        p.total_seats =
          (if groupSeats (xGroup rows p.raw) ≠ 0 then groupSeats (xGroup rows p.raw)
           else pyToInt p.raw.seats) ∧
        p.total_enrollment =
          (if groupEnrolled (xGroup rows p.raw) ≠ 0 then groupEnrolled (xGroup rows p.raw)
           else pyToInt p.raw.enrolled)) ∧
      (¬ inXGroup rows p.raw →
        p.total_seats = pyToInt p.raw.seats ∧
        p.total_enrollment = pyToInt p.raw.enrolled) := by
  intro rows p hp
  rcases mem_processRows.1 hp with ⟨r, hr, rfl⟩
  simp only [show (deriveRow rows r).raw = r from rfl]
  constructor
  · intro h
    constructor
    · show totalSeatsOf rows r = _
      rw [totalSeatsOf, if_pos h]
    · show totalEnrollmentOf rows r = _
      rw [totalEnrollmentOf, if_pos h]
  · intro h
    constructor
    · show totalSeatsOf rows r = _
      rw [totalSeatsOf, if_neg h]
    · show totalEnrollmentOf rows r = _
      rw [totalEnrollmentOf, if_neg h]

def rowC2a : Row := mkRow "202610" "10001" "COMP 1101" "001" "Lecture" "10:00AM-11:50AM" "MW" "Smith, J." "30" "10"

def rowC2b : Row := mkRow "202610" "10002" "COMP 3101" "001" "Lecture" "10:00AM-11:50AM" "MW" "Smith, J." "25" "5"

def exC2W : List Row := [rowC2a, rowC2b]

/-- Witness for C2 on a grouped pair with non-zero sums. -/
theorem totals_spec_witness :
    (deriveRow exC2W rowC2a).total_seats =
      (if groupSeats (xGroup exC2W (deriveRow exC2W rowC2a).raw) ≠ 0 then
        groupSeats (xGroup exC2W (deriveRow exC2W rowC2a).raw)
       else pyToInt (deriveRow exC2W rowC2a).raw.seats) ∧
    (deriveRow exC2W rowC2a).total_enrollment =
      (if groupEnrolled (xGroup exC2W (deriveRow exC2W rowC2a).raw) ≠ 0 then
        groupEnrolled (xGroup exC2W (deriveRow exC2W rowC2a).raw)
       else pyToInt (deriveRow exC2W rowC2a).raw.enrolled) :=
  (totals_spec exC2W (deriveRow exC2W rowC2a) (by decide)).1 (by decide)

/-! ### Claim C3: the lowest-course-number mark -/

/-- A value returned by `minFold` occurs in the list. -/
theorem minFold_mem {l : List Nat} {m : Nat} (h : minFold l = some m) : m ∈ l := by
  induction l with
  | nil => exact absurd h (by simp [minFold])
  | cons x xs ih =>
    rw [minFold, List.foldr, show List.foldr _ _ xs = minFold xs from rfl] at h
    rcases hxs : (minFold xs) with _ | k
    · rw [hxs] at h
      simp only [Option.some.injEq] at h
      exact h ▸ List.mem_cons_self x xs
    · rw [hxs] at h
      simp only [Option.some.injEq] at h
      have hdef : x.min k = if x ≤ k then x else k := rfl
      by_cases hxk : x ≤ k
      · rw [hdef, if_pos hxk] at h
        exact h ▸ List.mem_cons_self x xs
      · rw [hdef, if_neg hxk] at h
        exact List.mem_cons_of_mem x (ih (h ▸ hxs))

def exC3 : List Row :=
  [mkRow "T" "1" "COMP 1101" "001" "L" "10:00AM-11:00AM" "MW" "I" "5" "5",
   mkRow "T" "2" "MATH 1101" "002" "L" "10:00AM-11:00AM" "MW" "I" "5" "5"]

/-- C3 counterexample: the batch is a single crosslist group of two members
whose course numbers both parse to 1101 (a tie); both are marked
`lower-crosslist = true`, so it is not the case that exactly one record of
the group is marked. -/
theorem lowest_claim_counterexample :
    (processRows exC3).countP (fun p => p.lowerCrosslist) = 2 ∧
    (processRows exC3).length = 2 ∧
    inXGroup exC3 ((processRows exC3).getD 0 default).raw ∧
    inXGroup exC3 ((processRows exC3).getD 1 default).raw ∧
    (xGroup exC3 ((processRows exC3).getD 0 default).raw).length = 2 ∧
    courseNumber ((processRows exC3).getD 0 default).raw.course = some 1101 ∧
    courseNumber ((processRows exC3).getD 1 default).raw.course = some 1101 := by
  decide

/-- C3 amended: in a crosslist group of at least two members, when some
member's course number parses, a record is marked `lower-crosslist = true`
iff its own course number parses and equals the group minimum (so every
record attaining the minimum is marked — at least one member attains it —
and all others are unmarked); when no member's number parses, every member
is marked; records outside such groups are marked. -/
theorem lowest_spec :
    ∀ rows : List Row, ∀ p ∈ processRows rows,
      (inXGroup rows p.raw →
        (∀ m, groupMin (xGroup rows p.raw) = some m →
          ((p.lowerCrosslist = true ↔ courseNumber p.raw.course = some m) ∧
            ∃ s ∈ xGroup rows p.raw, courseNumber s.course = some m)) ∧
        (groupMin (xGroup rows p.raw) = none → p.lowerCrosslist = true)) ∧
      (¬ inXGroup rows p.raw → p.lowerCrosslist = true) := by
  intro rows p hp
  rcases mem_processRows.1 hp with ⟨r, hr, rfl⟩
  simp only [show (deriveRow rows r).raw = r from rfl]
  constructor
  · intro h
    constructor
    · intro m hm
      constructor
      · show lowerCrosslistOf rows r = true ↔ _
        rw [lowerCrosslistOf, if_pos h, hm]
        cases hc : courseNumber r.course with
        | none => simp
        | some n => simp [beq_iff_eq]
      · rcases List.mem_filterMap.1 (minFold_mem hm) with ⟨s, hs, hsc⟩
        exact ⟨s, hs, hsc⟩
    · intro hm
      show lowerCrosslistOf rows r = true
      rw [lowerCrosslistOf, if_pos h, hm]
  · intro h
    show lowerCrosslistOf rows r = true
    rw [lowerCrosslistOf, if_neg h]

def rowC3a : Row := mkRow "202610" "10001" "COMP 1101" "001" "Lecture" "10:00AM-11:50AM" "MW" "Smith, J." "30" "10"

def rowC3b : Row := mkRow "202610" "10002" "COMP 3101" "001" "Lecture" "10:00AM-11:50AM" "MW" "Smith, J." "25" "5"

def exC3W : List Row := [rowC3a, rowC3b]

/-! ### Claim C1: symmetry of crosslist and conflict lists -/

def exC1 : List Row :=
  [mkRow "T" "x,y" "C1" "001" "L" "10:00AM-11:00AM" "MW" "I" "1" "1",
   mkRow "T" "x" "C2" "002" "L" "10:00AM-11:00AM" "MW" "I" "1" "1",
   mkRow "T" "y" "C3" "003" "L" "10:00AM-11:00AM" "MW" "I" "1" "1"]

/-- C1 counterexample: the CRNs "x,y", "x" and "y" are non-empty and unique
within the single term of the batch, yet the comma inside "x,y" makes the
comma-joined lists ambiguous: the record with CRN "x,y" lists "x" in its
crosslist, while the record with CRN "x" has crosslist text "x,y,y", whose
comma-separated entries do not include "x,y" — so the claimed symmetry
fails as stated. -/
theorem symmetry_claim_counterexample :
    crnsUnique exC1 ∧ crnsNonempty exC1 ∧ (processRows exC1).length = 3 ∧
    pyStrip ((processRows exC1).getD 1 default).raw.term =
      pyStrip ((processRows exC1).getD 0 default).raw.term ∧
    pyStrip ((processRows exC1).getD 1 default).raw.crn ∈
      csvList ((processRows exC1).getD 0 default).crosslist ∧
    pyStrip ((processRows exC1).getD 0 default).raw.crn ∉
      csvList ((processRows exC1).getD 1 default).crosslist := by
  decide

/-- C1 amended: when the batch's records bear CRNs that are non-empty,
comma-free, and unique within each term, then for any two processed
records of the same term the crosslist lists are symmetric, the conflicts
lists are symmetric, no record's conflicts list contains its own CRN, and
no record's conflicts list contains a crosslist sibling's CRN. -/
theorem symmetry_spec (rows : List Row)
    (hu : crnsUnique rows) (hne : crnsNonempty rows) (hcf : crnsCommaFree rows) :
    ∀ p ∈ processRows rows, ∀ q ∈ processRows rows,
      pyStrip p.raw.term = pyStrip q.raw.term →
      ((pyStrip q.raw.crn ∈ csvList p.crosslist ↔
          pyStrip p.raw.crn ∈ csvList q.crosslist) ∧
        (pyStrip q.raw.crn ∈ csvList p.conflicts ↔
          pyStrip p.raw.crn ∈ csvList q.conflicts) ∧
        pyStrip p.raw.crn ∉ csvList p.conflicts ∧
        (pyStrip q.raw.crn ∈ csvList p.crosslist →
          pyStrip q.raw.crn ∉ csvList p.conflicts)) := by
  intro p hp q hq ht
  rcases mem_processRows.1 hp with ⟨a, ha, rfl⟩
  rcases mem_processRows.1 hq with ⟨b, hb, rfl⟩
  simp only [show ∀ r, (deriveRow rows r).raw = r from fun _ => rfl,
    show ∀ r, (deriveRow rows r).crosslist = crosslistOf rows r from fun _ => rfl,
    show ∀ r, (deriveRow rows r).conflicts = conflictsOf rows r from fun _ => rfl] at *
  refine ⟨?_, ?_, ?_, ?_⟩
  · rw [mem_crosslistOf_iff hb hu hcf ht, mem_crosslistOf_iff ha hu hcf ht.symm]
    constructor
    · rintro ⟨hg, hkey, hne2, hnr⟩
      exact ⟨(inXGroup_iff_of_xKey_eq hkey).2 hg, hkey.symm, hne a ha, fun h => hnr h.symm⟩
    · rintro ⟨hg, hkey, hne2, hnr⟩
      exact ⟨(inXGroup_iff_of_xKey_eq hkey).2 hg, hkey.symm, hne b hb, fun h => hnr h.symm⟩
  · rw [mem_conflictsOf_iff hb hu hcf ht, mem_conflictsOf_iff ha hu hcf ht.symm,
      confPred_symm rows a b]
  · rw [mem_conflictsOf_iff ha hu hcf rfl]
    intro h
    rcases confPred_iff.1 h with ⟨_, _, _, _, _, _, _, _, _, _, _, _, _, hnecrn⟩
    exact hnecrn rfl
  · rw [mem_crosslistOf_iff hb hu hcf ht, mem_conflictsOf_iff hb hu hcf ht]
    rintro hx hc
    rcases confPred_iff.1 hc with ⟨_, _, _, _, _, _, _, _, _, hsib, _⟩
    exact hsib ((mem_crosslistOf_iff hb hu hcf ht).2 hx)

def rowC1a : Row :=
  mkRow "202610" "10001" "COMP 1101" "001" "Lecture" "10:00AM-11:50AM" "MW" "Smith, J." "30" "10"

def rowC1b : Row :=
  mkRow "202610" "10002" "COMP 3101" "001" "Lecture" "10:00AM-11:50AM" "MW" "Smith, J." "25" "5"

def rowC1c : Row :=
  mkRow "202610" "10003" "COMP 2202" "001" "Lecture" "10:00AM-11:50AM" "MW" "Jones, K." "30" "10"

def exC1W : List Row := [rowC1a, rowC1b, rowC1c]

/-- Witness for C1 on a three-row batch with a crosslist pair and a
conflicting third row. -/
theorem symmetry_spec_witness :
    (pyStrip (deriveRow exC1W rowC1b).raw.crn ∈
        csvList (deriveRow exC1W rowC1a).crosslist ↔
      pyStrip (deriveRow exC1W rowC1a).raw.crn ∈
        csvList (deriveRow exC1W rowC1b).crosslist) ∧
    (pyStrip (deriveRow exC1W rowC1b).raw.crn ∈
        csvList (deriveRow exC1W rowC1a).conflicts ↔
      pyStrip (deriveRow exC1W rowC1a).raw.crn ∈
        csvList (deriveRow exC1W rowC1b).conflicts) ∧
    pyStrip (deriveRow exC1W rowC1a).raw.crn ∉
      csvList (deriveRow exC1W rowC1a).conflicts :=
  ⟨(symmetry_spec exC1W (by decide) (by decide) (by decide)
      (deriveRow exC1W rowC1a) (by decide)
      (deriveRow exC1W rowC1b) (by decide) (by decide)).1,
    (symmetry_spec exC1W (by decide) (by decide) (by decide)
      (deriveRow exC1W rowC1a) (by decide)
      (deriveRow exC1W rowC1b) (by decide) (by decide)).2.1,
    (symmetry_spec exC1W (by decide) (by decide) (by decide)
      (deriveRow exC1W rowC1a) (by decide)
      (deriveRow exC1W rowC1b) (by decide) (by decide)).2.2.1⟩

/-! ### Claim C5: half-open overlap and back-to-back records -/

def exC5 : List Row :=
  [mkRow "T" "A1" "C 101" "001" "L" "10:00AM-11:00AM" "MW" "I1" "5" "5",
   mkRow "T" "X" "C 102" "002" "L" "11:00AM-12:00PM" "MW" "I2" "5" "5",
   mkRow "T" "X" "C 103" "003" "L" "10:30AM-11:30AM" "MW" "I3" "5" "5"]

/-- C5 counterexample: records 1 ("A1", ends 11:00AM) and 2 (CRN "X",
starts 11:00AM) are same-term, share day MW and are back-to-back, yet
record 1's conflicts list contains "X", because a third overlapping record
also bears the CRN "X" — so the claim fails as stated when CRNs are not
unique within the term. -/
theorem overlap_claim_counterexample :
    (processRows exC5).length = 3 ∧
    pyStrip ((processRows exC5).getD 0 default).raw.term =
      pyStrip ((processRows exC5).getD 1 default).raw.term ∧
    parseTimeRange ((processRows exC5).getD 0 default).raw.time = some (600, 660) ∧
    parseTimeRange ((processRows exC5).getD 1 default).raw.time = some (660, 720) ∧
    "MW" ∈ parseDays ((processRows exC5).getD 0 default).raw.days ∧
    "MW" ∈ parseDays ((processRows exC5).getD 1 default).raw.days ∧
    pyStrip ((processRows exC5).getD 1 default).raw.crn ∈
      csvList ((processRows exC5).getD 0 default).conflicts := by
  decide

/-- C5 amended: the overlap test is the half-open `start₁ < end₂ ∧
start₂ < end₁`, and — provided the batch's CRNs are unique within each
term, non-empty and comma-free — two same-term processed records meeting
on a shared day whose parsed times are back-to-back never list each
other's CRN as a conflict. -/
theorem backToBack_spec (rows : List Row)
    (hu : crnsUnique rows) (hcf : crnsCommaFree rows) :
    (∀ t1 t2 : Nat × Nat, timesOverlap t1 t2 = true ↔ t1.1 < t2.2 ∧ t2.1 < t1.2) ∧
    ∀ p ∈ processRows rows, ∀ q ∈ processRows rows,
      pyStrip p.raw.term = pyStrip q.raw.term →
      (∃ d ∈ parseDays p.raw.days, d ∈ parseDays q.raw.days) →
      ∀ s1 e1 s2 e2, parseTimeRange p.raw.time = some (s1, e1) →
        parseTimeRange q.raw.time = some (s2, e2) → e1 = s2 →
        pyStrip q.raw.crn ∉ csvList p.conflicts ∧
        pyStrip p.raw.crn ∉ csvList q.conflicts := by
  refine ⟨fun t1 t2 => by simp [timesOverlap], ?_⟩
  intro p hp q hq ht hdays s1 e1 s2 e2 hp1 hp2 hback
  rcases mem_processRows.1 hp with ⟨a, ha, rfl⟩
  rcases mem_processRows.1 hq with ⟨b, hb, rfl⟩
  simp only [show ∀ r, (deriveRow rows r).raw = r from fun _ => rfl,
    show ∀ r, (deriveRow rows r).conflicts = conflictsOf rows r from fun _ => rfl] at *
  constructor
  · rw [mem_conflictsOf_iff hb hu hcf ht]
    intro hconf
    rcases confPred_iff.1 hconf with ⟨ta, tb, hta, htb, -, -, -, -, hov, -⟩
    rw [hp1] at hta
    rw [hp2] at htb
    cases hta
    cases htb
    rcases (by simpa [timesOverlap] using hov : s1 < e2 ∧ s2 < e1) with ⟨-, h2⟩
    omega
  · rw [mem_conflictsOf_iff ha hu hcf ht.symm]
    intro hconf
    rcases confPred_iff.1 hconf with ⟨tb, ta, htb, hta, -, -, -, -, hov, -⟩
    rw [hp1] at hta
    rw [hp2] at htb
    cases hta
    cases htb
    rcases (by simpa [timesOverlap] using hov : s2 < e1 ∧ s1 < e2) with ⟨h1, -⟩
    omega

def rowC5a : Row :=
  mkRow "202610" "20001" "COMP 1101" "001" "Lecture" "10:00AM-11:50AM" "MW" "A" "30" "10"

def rowC5b : Row :=
  mkRow "202610" "20002" "COMP 2202" "001" "Lecture" "11:50AM-1:00PM" "MW" "B" "30" "10"

def exC5W : List Row := [rowC5a, rowC5b]

/-- Witness for C5 on a back-to-back pair with unique CRNs. -/
theorem backToBack_spec_witness :
    pyStrip (deriveRow exC5W rowC5b).raw.crn ∉
      csvList (deriveRow exC5W rowC5a).conflicts ∧
    pyStrip (deriveRow exC5W rowC5a).raw.crn ∉
      csvList (deriveRow exC5W rowC5b).conflicts :=
  (backToBack_spec exC5W (by decide) (by decide)).2
    (deriveRow exC5W rowC5a) (by decide)
    (deriveRow exC5W rowC5b) (by decide) (by decide)
    (by decide) 600 710 710 780 (by decide) (by decide) rfl

/-! ### Claim C9: determinism and idempotence

The derived fields of a record depend on the batch only through its
multiset of rows: every intermediate list is summed, sorted or
deduplicated.  The lemmas below make that precise, and idempotence
follows because re-sorting the already-sorted output changes nothing. -/

/-- Sorting two permuted string lists gives the same sorted list. -/
theorem sortStrings_eq_of_perm {l₁ l₂ : List String} (h : l₁.Perm l₂) :
    sortStrings l₁ = sortStrings l₂ :=
  List.eq_of_perm_of_sorted
    ((List.perm_insertionSort strLe l₁).trans (h.trans (List.perm_insertionSort strLe l₂).symm))
    (List.sorted_insertionSort strLe l₁) (List.sorted_insertionSort strLe l₂)

theorem minFold_cons (x : Nat) (l : List Nat) :
    minFold (x :: l) =
      some (match minFold l with | none => x | some m => Nat.min x m) := rfl

theorem natMin_left_comm (a b c : Nat) :
    Nat.min a (Nat.min b c) = Nat.min b (Nat.min a c) := by
  rw [show ∀ x y : Nat, Nat.min x y = if x ≤ y then x else y from fun _ _ => rfl,
    show ∀ x y : Nat, Nat.min x y = if x ≤ y then x else y from fun _ _ => rfl,
    show ∀ x y : Nat, Nat.min x y = if x ≤ y then x else y from fun _ _ => rfl,
    show ∀ x y : Nat, Nat.min x y = if x ≤ y then x else y from fun _ _ => rfl]
  split_ifs <;> omega

/-- The minimum of a list is invariant under permutation. -/
theorem minFold_perm {l₁ l₂ : List Nat} (h : l₁.Perm l₂) : minFold l₁ = minFold l₂ := by
  induction h with
  | nil => rfl
  | cons x h ih => rw [minFold_cons, minFold_cons, ih]
  | swap x y l =>
    rw [minFold_cons, minFold_cons, minFold_cons, minFold_cons]
    cases minFold l with
    | none => simp [Nat.min_comm]
    | some m => simp [natMin_left_comm]
  | trans h1 h2 ih1 ih2 => exact ih1.trans ih2

theorem xGroup_perm {rows₁ rows₂ : List Row} (h : rows₁.Perm rows₂) (r : Row) :
    (xGroup rows₁ r).Perm (xGroup rows₂ r) := h.filter _

theorem inXGroup_perm {rows₁ rows₂ : List Row} (h : rows₁.Perm rows₂) (r : Row) :
    inXGroup rows₁ r ↔ inXGroup rows₂ r := by
  unfold inXGroup
  rw [(xGroup_perm h r).length_eq]

theorem crosslistOf_perm {rows₁ rows₂ : List Row} (h : rows₁.Perm rows₂) (r : Row) :
    crosslistOf rows₁ r = crosslistOf rows₂ r := by
  have hg := xGroup_perm h r
  have ho : ((groupCrns (xGroup rows₁ r)).filter (fun c => c != pyStrip r.crn)).Perm
      ((groupCrns (xGroup rows₂ r)).filter (fun c => c != pyStrip r.crn)) :=
    ((hg.map _).filter _).filter _
  simp only [crosslistOf]
  by_cases h1 : inXGroup rows₁ r
  · rw [if_pos h1, if_pos ((inXGroup_perm h r).1 h1)]
    rw [ho.isEmpty_eq, sortStrings_eq_of_perm ho]
  · rw [if_neg h1, if_neg (fun h2 => h1 ((inXGroup_perm h r).2 h2))]

theorem totalSeatsOf_perm {rows₁ rows₂ : List Row} (h : rows₁.Perm rows₂) (r : Row) :
    totalSeatsOf rows₁ r = totalSeatsOf rows₂ r := by
  have hs : groupSeats (xGroup rows₁ r) = groupSeats (xGroup rows₂ r) :=
    ((xGroup_perm h r).map _).sum_eq
  unfold totalSeatsOf
  by_cases h1 : inXGroup rows₁ r
  · rw [if_pos h1, if_pos ((inXGroup_perm h r).1 h1), hs]
  · rw [if_neg h1, if_neg (fun h2 => h1 ((inXGroup_perm h r).2 h2))]

theorem totalEnrollmentOf_perm {rows₁ rows₂ : List Row} (h : rows₁.Perm rows₂) (r : Row) :
    totalEnrollmentOf rows₁ r = totalEnrollmentOf rows₂ r := by
  have hs : groupEnrolled (xGroup rows₁ r) = groupEnrolled (xGroup rows₂ r) :=
    ((xGroup_perm h r).map _).sum_eq
  unfold totalEnrollmentOf
  by_cases h1 : inXGroup rows₁ r
  · rw [if_pos h1, if_pos ((inXGroup_perm h r).1 h1), hs]
  · rw [if_neg h1, if_neg (fun h2 => h1 ((inXGroup_perm h r).2 h2))]

theorem lowerCrosslistOf_perm {rows₁ rows₂ : List Row} (h : rows₁.Perm rows₂) (r : Row) :
    lowerCrosslistOf rows₁ r = lowerCrosslistOf rows₂ r := by
  have hm : groupMin (xGroup rows₁ r) = groupMin (xGroup rows₂ r) :=
    minFold_perm ((xGroup_perm h r).filterMap _)
  unfold lowerCrosslistOf
  by_cases h1 : inXGroup rows₁ r
  · rw [if_pos h1, if_pos ((inXGroup_perm h r).1 h1), hm]
  · rw [if_neg h1, if_neg (fun h2 => h1 ((inXGroup_perm h r).2 h2))]

theorem sibList_perm {rows₁ rows₂ : List Row} (h : rows₁.Perm rows₂) (r : Row) :
    sibList rows₁ r = sibList rows₂ r := by
  unfold sibList
  rw [crosslistOf_perm h r]

theorem confPred_perm {rows₁ rows₂ : List Row} (h : rows₁.Perm rows₂) (a b : Row) :
    confPred rows₁ a b = confPred rows₂ a b := by
  unfold confPred
  rw [sibList_perm h a, sibList_perm h b]

theorem conflictsOf_perm {rows₁ rows₂ : List Row} (h : rows₁.Perm rows₂) (r : Row) :
    conflictsOf rows₁ r = conflictsOf rows₂ r := by
  unfold conflictsOf
  rw [List.filter_congr (fun s _ => confPred_perm h r s)]
  exact congrArg joinComma
    (sortStrings_eq_of_perm (((h.filter (confPred rows₂ r)).map _).dedup))

/-- The whole annotation of a row depends on the batch only up to
permutation. -/
theorem deriveRow_perm {rows₁ rows₂ : List Row} (h : rows₁.Perm rows₂) (r : Row) :
    deriveRow rows₁ r = deriveRow rows₂ r := by
  unfold deriveRow
  rw [crosslistOf_perm h r, lowerCrosslistOf_perm h r, totalSeatsOf_perm h r,
    totalEnrollmentOf_perm h r, conflictsOf_perm h r]

/-- Re-annotating the output of `process_rows` changes nothing: each output
record is already the annotation of its own raw fields over (a permutation
of) the original batch. -/
theorem reannotate_processRows (rows : List Row) :
    ((processRows rows).map ProcRow.raw).map
        (deriveRow ((processRows rows).map ProcRow.raw)) =
      processRows rows := by
  have hperm : ((processRows rows).map ProcRow.raw).Perm rows := raw_processRows_perm rows
  rw [List.map_congr_left (fun r _ => deriveRow_perm hperm r), List.map_map]
  have : ∀ p ∈ processRows rows, (deriveRow rows ∘ ProcRow.raw) p = p := by
    intro p hp
    rcases mem_processRows.1 hp with ⟨r, hr, rfl⟩
    rfl
  rw [List.map_congr_left this]
  exact List.map_id' _

/-- C9: the pipeline is a function of the raw field values (two batches
with identical raw fields in the same positions process identically), and
re-running it on the raw fields of its own output reproduces the output —
derived fields and ordering — exactly. -/
theorem processRows_idempotent :
    (∀ rows₁ rows₂ : List Row, rows₁ = rows₂ → processRows rows₁ = processRows rows₂) ∧
    ∀ rows : List Row,
      processRows ((processRows rows).map ProcRow.raw) = processRows rows := by
  refine ⟨fun _ _ h => congrArg processRows h, ?_⟩
  intro rows
  show List.insertionSort rowLe
      (((processRows rows).map ProcRow.raw).map
        (deriveRow ((processRows rows).map ProcRow.raw))) = processRows rows
  rw [reannotate_processRows rows]
  exact List.Sorted.insertionSort_eq (List.sorted_insertionSort rowLe _)

def exC9 : List Row :=
  [mkRow "202610" "10001" "COMP 1101" "001" "Lecture" "10:00AM-11:50AM" "MW" "Smith, J." "30" "10",
   mkRow "202610" "10003" "COMP 2202" "001" "Lecture" "10:00AM-11:50AM" "MW" "Jones, K." "30" "10",
   mkRow "202610" "10002" "COMP 3101" "001" "Lecture" "10:00AM-11:50AM" "MW" "Smith, J." "25" "5"]

/-- Witness for C9 on a three-row batch. -/
theorem processRows_idempotent_witness :
    processRows exC9 = processRows exC9 ∧
    processRows ((processRows exC9).map ProcRow.raw) = processRows exC9 :=
  ⟨processRows_idempotent.1 exC9 exC9 rfl, processRows_idempotent.2 exC9⟩

/-! ### Claim C4: the GTA compatibility matrix -/

theorem get?_map_eq {α β : Type} (f : α → β) (l : List α) (n : Nat) :
    (l.map f).get? n = (l.get? n).map f := by
  induction l generalizing n with
  | nil => cases n <;> rfl
  | cons x xs ih =>
    cases n with
    | zero => rfl
    | succ n => simp [ih n]

/-- The split-and-filter readback of the matrix builder agrees with
`csvList` on strings whose comma-separated entries are non-empty. -/
theorem matrixConflictSet_eq {s : String} (h : ∀ c ∈ csvList s, c ≠ "") :
    matrixConflictSet s = csvList s := by
  by_cases hs : s = ""
  · subst hs
    rfl
  · unfold matrixConflictSet
    rw [show csvList s = splitComma s from if_neg hs] at h
    rw [show csvList s = splitComma s from if_neg hs]
    exact List.filter_eq_self.2 (fun c hc => by simpa [bne_iff_ne] using h c hc)

/-- Entries of a conflicts field are never the empty string. -/
theorem csvList_conflictsOf_ne {rows : List Row} {r : Row} (hcf : crnsCommaFree rows) :
    ∀ c ∈ csvList (conflictsOf rows r), c ≠ "" := by
  intro c hc
  rcases (mem_conflictsOf hcf).1 hc with ⟨s, -, hp, rfl⟩
  exact confPred_crn_ne hp

theorem mem_termBucket {rows : List Row} {t : String} {p : ProcRow} :
    p ∈ termBucket rows t ↔ p ∈ processRows rows ∧ pyStrip p.raw.term = t := by
  simp [termBucket, List.mem_filter]

theorem mem_gtaSorted {rows : List ProcRow} {p : ProcRow} :
    p ∈ gtaSorted rows ↔ p ∈ rows ∧ p.gta_eligible = true ∧ p.raw.crn ≠ "" := by
  unfold gtaSorted eligibleOf
  rw [List.mem_insertionSort, List.mem_filter]
  simp [bne_iff_ne]

def exC4 : List Row :=
  [mkRow "T" "P" "AAA 101" "001" "Lecture" "10:00AM-11:00AM" "MW" "I1" "30" "10",
   mkRow "T" "Q" "AAA 101" "002" "Lecture" "10:30AM-11:30AM" "MW" "I2" "30" "10",
   mkRow "T" "Q" "AAA 101" "003" "Lecture" "2:00PM-3:00PM" "MW" "I3" "30" "10"]

/-- C4 counterexample: two eligible records share the CRN "Q"; the second
("2:00PM" section, no conflicts) overwrites the first in `conflict_map`,
so row "P" shows FALSE against column "Q" while row "Q" shows TRUE against
column "P": the matrix is not symmetric as the claim states it. -/
theorem matrix_claim_counterexample :
    gtaMatrix (termBucket exC4 "T") =
      some [["CRN", "P", "Q", "Q"],
            ["P", "TRUE", "FALSE", "FALSE"],
            ["Q", "TRUE", "TRUE", "TRUE"],
            ["Q", "TRUE", "TRUE", "TRUE"]] ∧
    matrixCell [["CRN", "P", "Q", "Q"],
                ["P", "TRUE", "FALSE", "FALSE"],
                ["Q", "TRUE", "TRUE", "TRUE"],
                ["Q", "TRUE", "TRUE", "TRUE"]] 0 1 = some "FALSE" ∧
    matrixCell [["CRN", "P", "Q", "Q"],
                ["P", "TRUE", "FALSE", "FALSE"],
                ["Q", "TRUE", "TRUE", "TRUE"],
                ["Q", "TRUE", "TRUE", "TRUE"]] 1 0 = some "TRUE" := by
  decide

/-- C4 amended: when the batch's CRNs are unique within each term and
comma-free, the per-term compatibility matrix is square (header plus one
row per eligible CRN, each of header width), its diagonal is TRUE, it is
symmetric, and a cell is FALSE exactly when the row's and the column's
CRNs are in each other's conflict sets. -/
theorem matrix_spec (rows : List Row) (t : String)
    (hu : crnsUnique rows) (hcf : crnsCommaFree rows) :
    ∀ M, gtaMatrix (termBucket rows t) = some M →
      (M.length = (gtaCrns (termBucket rows t)).length + 1 ∧
        ∀ row ∈ M, row.length = (gtaCrns (termBucket rows t)).length + 1) ∧
      (∀ i, i < (gtaCrns (termBucket rows t)).length →
        matrixCell M i i = some "TRUE") ∧
      (∀ i j, i < (gtaCrns (termBucket rows t)).length →
          j < (gtaCrns (termBucket rows t)).length →
        matrixCell M i j = matrixCell M j i) ∧
      (∀ i j, i < (gtaCrns (termBucket rows t)).length →
          j < (gtaCrns (termBucket rows t)).length →
        (matrixCell M i j = some "FALSE" ↔
          ((gtaCrns (termBucket rows t)).getD j "" ∈
              matrixConflictSet (((gtaSorted (termBucket rows t)).getD i default).conflicts) ∧
            (gtaCrns (termBucket rows t)).getD i "" ∈
              matrixConflictSet (((gtaSorted (termBucket rows t)).getD j default).conflicts)))) := by
  intro M hM
  unfold gtaMatrix at hM
  set B := termBucket rows t with hB
  set S := gtaSorted B with hS
  set C := gtaCrns B with hCdef
  have hCS : C = S.map (fun p => pyStrip p.raw.crn) := rfl
  have hCSlen : C.length = S.length := by rw [hCS, List.length_map]
  by_cases he : (eligibleOf B).isEmpty
  · rw [if_pos he] at hM
    exact absurd hM (by simp)
  rw [if_neg he] at hM
  have hMeq : M = ("CRN" :: C) ::
      C.map (fun rowCrn => rowCrn :: C.map (fun colCrn => gtaCell S rowCrn colCrn)) := by
    simpa [eq_comm] using hM
  subst hMeq
  -- membership facts about the sorted eligible rows
  have hmemS : ∀ p ∈ S, ∃ r ∈ rows, p = deriveRow rows r ∧ pyStrip r.term = t := by
    intro p hp
    have h1 : p ∈ B := (mem_gtaSorted.1 hp).1
    have h2 := mem_termBucket.1 h1
    rcases mem_processRows.1 h2.1 with ⟨r, hr, rfl⟩
    exact ⟨r, hr, rfl, h2.2⟩
  have hinj : ∀ p ∈ S, ∀ q ∈ S, pyStrip p.raw.crn = pyStrip q.raw.crn → p = q := by
    intro p hp q hq hcrn
    rcases hmemS p hp with ⟨r, hr, rfl, hrt⟩
    rcases hmemS q hq with ⟨s, hs, rfl, hst⟩
    have hraw : r = s :=
      crn_inj hu r hr s hs (by
        show pyStrip r.term = pyStrip s.term
        rw [hrt, hst]) hcrn
    rw [hraw]
  have hlookup : ∀ p ∈ S,
      conflictMapGet S (pyStrip p.raw.crn) = matrixConflictSet p.conflicts := by
    intro p hp
    unfold conflictMapGet
    rcases hfind : S.reverse.find? (fun q => pyStrip q.raw.crn == pyStrip p.raw.crn)
      with _ | q
    · exfalso
      rw [List.find?_eq_none] at hfind
      exact hfind p (List.mem_reverse.2 hp) (by simp)
    · have hq1 : pyStrip q.raw.crn = pyStrip p.raw.crn := by
        simpa using List.find?_some hfind
      have hq2 : q ∈ S := List.mem_reverse.1 (List.mem_of_find?_eq_some hfind)
      simp only [hfind]
      rw [hinj q hq2 p hp hq1]
  have hconfmem : ∀ p ∈ S, ∀ q ∈ S,
      (pyStrip q.raw.crn ∈ matrixConflictSet p.conflicts ↔
        confPred rows p.raw q.raw = true) := by
    intro p hp q hq
    rcases hmemS p hp with ⟨r, hr, rfl, hrt⟩
    rcases hmemS q hq with ⟨s, hs, rfl, hst⟩
    simp only [show ∀ x, (deriveRow rows x).raw = x from fun _ => rfl,
      show ∀ x, (deriveRow rows x).conflicts = conflictsOf rows x from fun _ => rfl]
    rw [matrixConflictSet_eq (csvList_conflictsOf_ne hcf),
      mem_conflictsOf_iff hs hu hcf (by rw [hrt, hst])]
  -- the cell a matrix position holds
  have hcell : ∀ i j (hi : i < C.length) (hj : j < C.length),
      matrixCell (("CRN" :: C) ::
          C.map (fun rowCrn => rowCrn :: C.map (fun colCrn => gtaCell S rowCrn colCrn)))
        i j = some (gtaCell S (C.get ⟨i, hi⟩) (C.get ⟨j, hj⟩)) := by
    intro i j hi hj
    unfold matrixCell
    rw [List.get?_cons_succ, get?_map_eq, List.get?_eq_get hi]
    simp only [Option.map_some', Option.some_bind]
    rw [List.get?_cons_succ, get?_map_eq, List.get?_eq_get hj]
    simp only [Option.map_some']
  -- matrix index versus sorted-row index
  have hgetS : ∀ i (hi : i < C.length), ∃ hi2 : i < S.length,
      C.get ⟨i, hi⟩ = pyStrip ((S.get ⟨i, hi2⟩)).raw.crn := by
    intro i hi
    have hi2 : i < S.length := hCSlen ▸ hi
    refine ⟨hi2, ?_⟩
    have h1 : C.get? i = some (pyStrip (S.get ⟨i, hi2⟩).raw.crn) := by
      rw [hCS, get?_map_eq, List.get?_eq_get hi2, Option.map_some']
    have h2 : C.get? i = some (C.get ⟨i, hi⟩) := List.get?_eq_get hi
    rw [h1] at h2
    exact (Option.some.inj h2).symm
  refine ⟨?_, ?_, ?_, ?_⟩
  · -- square: header plus one row per CRN, each of header width
    constructor
    · simp
    · intro row hrow
      rcases List.mem_cons.1 hrow with rfl | hrow2
      · simp
      · rcases List.mem_map.1 hrow2 with ⟨c, -, rfl⟩
        simp
  · -- diagonal
    intro i hi
    rw [hcell i i hi hi]
    simp [gtaCell]
  · -- symmetry
    intro i j hi hj
    rw [hcell i j hi hj, hcell j i hj hi]
    rcases hgetS i hi with ⟨hi2, hci⟩
    rcases hgetS j hj with ⟨hj2, hcj⟩
    have hpi : S.get ⟨i, hi2⟩ ∈ S := List.get_mem S _ _
    have hpj : S.get ⟨j, hj2⟩ ∈ S := List.get_mem S _ _
    congr 1
    unfold gtaCell
    by_cases hc : C.get ⟨i, hi⟩ = C.get ⟨j, hj⟩
    · rw [hc]
    · have hb : (conflictMapGet S (C.get ⟨i, hi⟩)).contains (C.get ⟨j, hj⟩) =
          (conflictMapGet S (C.get ⟨j, hj⟩)).contains (C.get ⟨i, hi⟩) := by
        rw [Bool.eq_iff_iff, hci, hcj, hlookup _ hpi, hlookup _ hpj]
        simp only [List.contains, List.elem_iff]
        rw [hconfmem _ hpi _ hpj, hconfmem _ hpj _ hpi, confPred_symm]
      have hne1 : ¬ ((C.get ⟨i, hi⟩ == C.get ⟨j, hj⟩) = true) := by
        simpa [beq_iff_eq] using hc
      have hne2 : ¬ ((C.get ⟨j, hj⟩ == C.get ⟨i, hi⟩) = true) := by
        simpa [beq_iff_eq] using Ne.symm hc
      rw [if_neg hne1, if_neg hne2, hb]
  · -- a cell is FALSE iff the two CRNs conflict with each other
    intro i j hi hj
    rw [hcell i j hi hj]
    rcases hgetS i hi with ⟨hi2, hci⟩
    rcases hgetS j hj with ⟨hj2, hcj⟩
    have hpi : S.get ⟨i, hi2⟩ ∈ S := List.get_mem S _ _
    have hpj : S.get ⟨j, hj2⟩ ∈ S := List.get_mem S _ _
    have hgd1 : C.getD j "" = C.get ⟨j, hj⟩ :=
      (List.getD_eq_getElem C "" hj).trans (List.get_eq_getElem C ⟨j, hj⟩).symm
    have hgd2 : C.getD i "" = C.get ⟨i, hi⟩ :=
      (List.getD_eq_getElem C "" hi).trans (List.get_eq_getElem C ⟨i, hi⟩).symm
    have hgdS1 : S.getD i default = S.get ⟨i, hi2⟩ :=
      (List.getD_eq_getElem S default hi2).trans (List.get_eq_getElem S ⟨i, hi2⟩).symm
    have hgdS2 : S.getD j default = S.get ⟨j, hj2⟩ :=
      (List.getD_eq_getElem S default hj2).trans (List.get_eq_getElem S ⟨j, hj2⟩).symm
    rw [hgd1, hgd2, hgdS1, hgdS2]
    simp only [Option.some.injEq]
    unfold gtaCell
    by_cases hc : C.get ⟨i, hi⟩ = C.get ⟨j, hj⟩
    · rw [if_pos (by simpa [beq_iff_eq] using hc)]
      constructor
      · intro hfalse
        exact absurd hfalse (by decide)
      · rintro ⟨h1, -⟩
        exfalso
        rw [hcj] at h1
        have hpred := (hconfmem _ hpi _ hpj).1 h1
        rcases confPred_iff.1 hpred with ⟨_, _, _, _, _, _, _, _, _, _, _, _, _, hne2⟩
        apply hne2
        rw [← hci, ← hcj]
        exact hc
    · rw [if_neg (by simpa [beq_iff_eq] using hc)]
      by_cases hcontains :
          (conflictMapGet S (C.get ⟨i, hi⟩)).contains (C.get ⟨j, hj⟩) = true
      · rw [if_pos hcontains]
        have h1 : pyStrip (S.get ⟨j, hj2⟩).raw.crn ∈
            matrixConflictSet (S.get ⟨i, hi2⟩).conflicts := by
          have h0 := hcontains
          rw [hci, hcj, hlookup _ hpi] at h0
          simpa [List.contains, List.elem_iff] using h0
        have hpred := (hconfmem _ hpi _ hpj).1 h1
        have hpred2 : confPred rows (S.get ⟨j, hj2⟩).raw (S.get ⟨i, hi2⟩).raw = true := by
          rw [confPred_symm]
          exact hpred
        constructor
        · intro _
          exact ⟨by rw [hcj]; exact h1,
            by rw [hci]; exact (hconfmem _ hpj _ hpi).2 hpred2⟩
        · intro _
          rfl
      · rw [if_neg hcontains]
        constructor
        · intro habs
          exact absurd habs (by decide)
        · rintro ⟨h1, -⟩
          exfalso
          apply hcontains
          rw [hci, hcj, hlookup _ hpi]
          rw [hcj] at h1
          simpa [List.contains, List.elem_iff] using h1

def exC4W : List Row :=
  [mkRow "202610" "10001" "COMP 1101" "001" "Lecture" "10:00AM-11:50AM" "MW" "Smith, J." "30" "10",
   mkRow "202610" "10002" "COMP 3101" "001" "Lecture" "10:00AM-11:50AM" "MW" "Smith, J." "25" "5",
   mkRow "202610" "10003" "COMP 2202" "001" "Lecture" "10:00AM-11:50AM" "MW" "Jones, K." "30" "10"]

def mC4W : List (List String) :=
  [["CRN", "10001", "10003", "10002"],
   ["10001", "TRUE", "FALSE", "TRUE"],
   ["10003", "FALSE", "TRUE", "FALSE"],
   ["10002", "TRUE", "FALSE", "TRUE"]]

/-- Witness for C4 on a three-row term with two conflict pairs and a
crosslisted (non-conflicting) pair: the diagonal cell (0,0), the symmetric
pair (0,1)/(1,0), and the FALSE characterization of cell (0,1). -/
theorem matrix_spec_witness :
    matrixCell mC4W 0 0 = some "TRUE" ∧
    matrixCell mC4W 0 1 = matrixCell mC4W 1 0 ∧
    (matrixCell mC4W 0 1 = some "FALSE" ↔
      ((gtaCrns (termBucket exC4W "202610")).getD 1 "" ∈
          matrixConflictSet
            (((gtaSorted (termBucket exC4W "202610")).getD 0 default).conflicts) ∧
        (gtaCrns (termBucket exC4W "202610")).getD 0 "" ∈
          matrixConflictSet
            (((gtaSorted (termBucket exC4W "202610")).getD 1 default).conflicts))) :=
  ⟨(matrix_spec exC4W "202610" (by decide) (by decide) mC4W (by decide)).2.1 0 (by decide),
    (matrix_spec exC4W "202610" (by decide) (by decide) mC4W (by decide)).2.2.1 0 1
      (by decide) (by decide),
    (matrix_spec exC4W "202610" (by decide) (by decide) mC4W (by decide)).2.2.2 0 1
      (by decide) (by decide)⟩

/-- Witness for C3 on a grouped pair with distinct course numbers. -/
theorem lowest_spec_witness :
    (deriveRow exC3W rowC3a).lowerCrosslist = true ↔
      courseNumber (deriveRow exC3W rowC3a).raw.course = some 1101 :=
  (((lowest_spec exC3W (deriveRow exC3W rowC3a) (by decide)).1 (by decide)).1 1101
    (by decide)).1

end CourseData
